import Mathlib

/-!
Verification of the DancingTiles Nanoleaf Aurora plugin
(src/DancingTiles/src/AuroraPlugin.cpp).

Shallow embedding conventions:
* C `uint32_t` counters are modelled as `Nat` (the guarded decrements and the
  running-max update never go negative, so no wrap occurs on the modelled paths).
* C `int` values are modelled as `Int`; a float-to-int conversion is modelled
  as truncation toward zero.
* C `float`/`double` arithmetic is modelled exactly: over `Rat` where the code
  mixes integers with the constant 0.7, and over `Real` where `sqrt` and `log`
  appear (distance falloff, intensity computation).
* The host shims (`getFftBins`, `drand48`, `getTempo`, layout and palette
  loading) are modelled as explicit parameters.
-/

/-! ## Compile-time constants (lines 53-66 of AuroraPlugin.cpp) -/

def BASE_COLOUR_R : ℤ := 0
def BASE_COLOUR_G : ℤ := 0
def BASE_COLOUR_B : ℤ := 0
def ADJACENT_PANEL_DISTANCE : ℚ := 86.599995
def TRANSITION_TIME : ℤ := 1
def MINIMUM_INTENSITY : ℝ := 0.2
def TRIGGER_THRESHOLD : ℚ := 0.7
def SPAWN_AMOUNT : ℕ := 1
def LIFESPAN : ℕ := 1
def TEMPO_ENABLED : Bool := false
def MININMUM_MULTIPLIER : ℚ := 1.5
def SKIP_COUNT : ℕ := 50

/-! ## Data model (lines 70-98) -/

/-- The light-source record `source_t` (lines 70-77): position, colour, age. -/
structure source_t where
  x : ℚ
  y : ℚ
  R : ℤ
  G : ℤ
  B : ℤ
  age : ℕ
deriving DecidableEq, Inhabited

/-- The per-frequency-bin record `freq_bin` (lines 82-91). -/
structure FreqBin where
  latest_minimum : ℕ
  soundPower : ℕ
  colour : ℤ
  runningMax : ℕ
  runningMin : ℕ
  maximumTrigger : ℕ
  previousPower : ℕ
  secondPreviousPower : ℕ
deriving DecidableEq, Inhabited

/-- One palette entry `RGB_t`. -/
structure RGB_t where
  R : ℤ
  G : ℤ
  B : ℤ
deriving DecidableEq, Inhabited

/-- A panel: identifier plus centroid coordinates. -/
structure Panel where
  panelId : ℤ
  cx : ℚ
  cy : ℚ
deriving DecidableEq, Inhabited

/-- The panel layout handed over by the host (`LayoutData`). -/
structure LayoutData where
  panels : List Panel
deriving Inhabited

/-- One output frame entry `Frame_t`. -/
structure Frame_t where
  panelId : ℤ
  r : ℤ
  g : ℤ
  b : ℤ
  transTime : ℤ
deriving DecidableEq, Inhabited

/-- The mutable globals of the plugin: the warm-up counter `cnt` (static in
`getPluginFrame`), `nColors`, the bin array and the source pool. -/
structure PluginState where
  cnt : ℕ
  nColors : ℤ
  freqBins : List FreqBin
  sources : List source_t
deriving Inhabited

/-! ## Pure numeric helpers -/

/-- Truncation toward zero of a rational, as the C float-to-int conversion. -/
def ratTrunc (q : ℚ) : ℤ := if 0 ≤ q then ⌊q⌋ else ⌈q⌉

/-- `addToRunningMax` (lines 106-112): the trail halves (integer division)
when the sample exceeds the current estimate and the trail is above 1; the
arithmetic of the return expression is float division, modelled exactly over
`Rat`, and the float result is converted back to `int` by truncation. -/
def addToRunningMax (runningMax valueToAdd effectiveTrail : ℤ) : ℤ :=
  let trail : ℤ :=
    if runningMax < valueToAdd ∧ 1 < effectiveTrail then effectiveTrail.tdiv 2
    else effectiveTrail
  ratTrunc ((runningMax : ℚ) - (runningMax : ℚ) / (effectiveTrail : ℚ)
    + (valueToAdd : ℚ) / (trail : ℚ))

/-- `beat_detector` (lines 271-299).  Reads `soundPower` from the bin record
(the caller stores the fresh sample there first), updates the running max on a
fallen-away local peak, lets the minimum floor snap down or decay by one,
fires a beat when the power exceeds the floor plus 0.7 of the running max
(snapping the floor up to the power on a trigger), and shifts the history.
The `uint32` store of the `addToRunningMax` result is modelled with `Int.toNat`
(the result is nonnegative for nonnegative inputs). -/
def beat_detector (bin : FreqBin) : FreqBin × ℕ :=
  let b1 :=
    if bin.soundPower + bin.runningMax / 4 < bin.previousPower ∧
        bin.secondPreviousPower < bin.previousPower then
      {bin with runningMax :=
        (addToRunningMax (bin.runningMax : ℤ) (bin.previousPower : ℤ) 4).toNat}
    else bin
  let b2 :=
    if b1.soundPower < b1.latest_minimum then
      {b1 with latest_minimum := b1.soundPower}
    else if 0 < b1.latest_minimum then
      {b1 with latest_minimum := b1.latest_minimum - 1}
    else b1
  let p :=
    if (b2.latest_minimum : ℚ) + (b2.runningMax : ℚ) * TRIGGER_THRESHOLD
        < (b2.soundPower : ℚ) then
      ({b2 with latest_minimum := b2.soundPower}, (1 : ℕ))
    else (b2, 0)
  let b3 := p.1
  ({b3 with secondPreviousPower := b3.previousPower, previousPower := b3.soundPower},
   p.2)

/-! ## Light-source pool (lines 161-224 and the aging loop 370-376) -/

/-- `removeSource` (lines 161-166): shift the tail down over slot `idx`. -/
def removeSource (idx : ℕ) (l : List source_t) : List source_t := l.eraseIdx idx

/-- `MAX_SOURCES` (line 128): `layoutData->nPanels * LIFESPAN`. -/
def MAX_SOURCES (layout : LayoutData) : ℕ := layout.panels.length * LIFESPAN

/-- Truncation toward zero of a real, as the C float-to-int conversion. -/
noncomputable def realTrunc (x : ℝ) : ℤ := if 0 ≤ x then ⌊x⌋ else ⌈x⌉

/-- The source record built by one `addSource` spawn iteration (lines 191-222):
a random panel index `n1 = drand48() * nPanels` truncated to int, the centroid
of that panel, and the palette colour scaled by the intensity with the float
product truncated back into the `int` channel. -/
noncomputable def mkSpawn (layout : LayoutData) (palette : List RGB_t)
    (paletteIndex : ℕ) (intensity : ℝ) (r : ℚ) : source_t :=
  let n1 : ℕ := (⌊r * (layout.panels.length : ℚ)⌋).toNat
  let p := layout.panels.getD n1 default
  let c := palette.getD paletteIndex default
  { x := p.cx, y := p.cy,
    R := realTrunc ((c.R : ℝ) * intensity),
    G := realTrunc ((c.G : ℝ) * intensity),
    B := realTrunc ((c.B : ℝ) * intensity),
    age := 0 }

/-- `addSource` (lines 180-224): a no-op with fewer than two panels; otherwise
one spawn iteration (`SPAWN_AMOUNT = 1`) which first evicts slot 0 when the
pool already holds `MAX_SOURCES = nPanels * LIFESPAN` sources and then appends
the new source. -/
noncomputable def addSource (layout : LayoutData) (palette : List RGB_t)
    (paletteIndex : ℕ) (intensity : ℝ) (r : ℚ)
    (pool : List source_t) : List source_t :=
  if layout.panels.length < 2 then pool
  else
    let pool1 :=
      if MAX_SOURCES layout ≤ pool.length then removeSource 0 pool
      else pool
    pool1 ++ [mkSpawn layout palette paletteIndex intensity r]

/-- The aging loop body of `getPluginFrame` (lines 370-376), written with an
explicit fuel that bounds the number of iterations: the loop advances `i` by
one per iteration and stops once `i` reaches the current pool length, which
never grows, so the initial length is enough fuel and the fuelled function
computes exactly the loop.  An aged-out entry triggers `removeSource(0)`
(slot 0, not slot `i`); otherwise the entry at `i` has its age incremented. -/
def ageLoopF : ℕ → ℕ → List source_t → List source_t
  | 0, _, l => l
  | fuel + 1, i, l =>
    if h : i < l.length then
      if (l.get ⟨i, h⟩).age = LIFESPAN then
        ageLoopF fuel (i + 1) (removeSource 0 l)
      else
        ageLoopF fuel (i + 1) (l.set i {l.get ⟨i, h⟩ with age := (l.get ⟨i, h⟩).age + 1})
    else l

/-- The whole per-tick aging pass over the source pool. -/
def ageAll (l : List source_t) : List source_t := ageLoopF l.length 0 l

/-! ## Intensity computation (lines 340-349 of getPluginFrame) -/

/-- The per-beat intensity computed in `getPluginFrame`: 1.0 by default, a
log-scaled value when both the power and the running max exceed 1, finally
clamped from above at 1.0. -/
noncomputable def computeIntensity (sp rm : ℕ) : ℝ :=
  let intensity : ℝ := 1
  let intensity :=
    if 1 < sp ∧ 1 < rm then
      (Real.log (sp : ℝ) / Real.log (rm : ℝ)) * (1 - MINIMUM_INTENSITY) + MINIMUM_INTENSITY
    else intensity
  if 1 < intensity then 1 else intensity

/-! ## Panel colour compositing (lines 169-174 and 230-264) -/

/-- `distance` (lines 169-174): cartesian distance between two points. -/
noncomputable def distance (x1 y1 x2 y2 : ℝ) : ℝ :=
  Real.sqrt ((x2 - x1) * (x2 - x1) + (y2 - y1) * (y2 - y1))

/-- The mixing factor of one source for one panel inside `renderPanel`
(lines 241-252): the distance normalized by the adjacent-panel distance is
squared, scaled by the diffusion multiplier and turned into `1/(d2*m+1)`.
With `TEMPO_ENABLED = false` the multiplier is the constant minimum. -/
noncomputable def srcFactor (px py : ℚ) (tempo : ℝ) (s : source_t) : ℝ :=
  let d := distance (px : ℝ) (py : ℝ) (s.x : ℝ) (s.y : ℝ) / (ADJACENT_PANEL_DISTANCE : ℝ)
  let d2 := d * d
  let multiplier : ℝ :=
    if TEMPO_ENABLED then Real.log (tempo + 1) + (MININMUM_MULTIPLIER : ℝ)
    else (MININMUM_MULTIPLIER : ℝ)
  1 / (d2 * multiplier + 1)

/-- One iteration of the accumulation loop of `renderPanel` (lines 257-259). -/
noncomputable def blendStep (px py : ℚ) (tempo : ℝ) (acc : ℝ × ℝ × ℝ)
    (s : source_t) : ℝ × ℝ × ℝ :=
  let factor := srcFactor px py tempo s
  (acc.1 * (1 - factor) + (s.R : ℝ) * factor,
   acc.2.1 * (1 - factor) + (s.G : ℝ) * factor,
   acc.2.2 * (1 - factor) + (s.B : ℝ) * factor)

/-- `renderPanel` (lines 230-264): fold every live source over the base colour
accumulator in pool order, then truncate each float channel to int.  The local
`tempo` is `getTempo() + 1`, passed in here as `tempoRaw + 1`. -/
noncomputable def renderPanel (p : Panel) (srcs : List source_t)
    (tempoRaw : ℝ) : ℤ × ℤ × ℤ :=
  let tempo := tempoRaw + 1
  let acc := srcs.foldl (blendStep p.cx p.cy tempo)
    ((BASE_COLOUR_R : ℝ), (BASE_COLOUR_G : ℝ), (BASE_COLOUR_B : ℝ))
  (realTrunc acc.1, realTrunc acc.2.1, realTrunc acc.2.2)

/-! ## Initialization (initPlugin, lines 123-157) -/

/-- `MAX_PALETTE_nColors` (line 127): `layoutData->nPanels - 2` in int
arithmetic, so it is negative for fewer than two panels. -/
def MAX_PALETTE_nColors (layout : LayoutData) : ℤ := (layout.panels.length : ℤ) - 2

/-- The `nColors` value after the truncation check of `initPlugin`
(lines 131-134). -/
def initNColors (layout : LayoutData) (paletteLen : ℕ) : ℤ :=
  if MAX_PALETTE_nColors layout < (paletteLen : ℤ) then MAX_PALETTE_nColors layout
  else (paletteLen : ℤ)

/-- The frequency-bin array built by `initPlugin` (lines 148-154): the first
`nColors` records get `latest_minimum = 0`, `runningMax = 50` and
`maximumTrigger = 1`; the remaining fields stay indeterminate (the C array is
allocated with `new` and those fields are never written), modelled by the
`junk` parameter. -/
def initFreqBins (junk : ℕ → FreqBin) (n : ℤ) : List FreqBin :=
  (List.range n.toNat).map fun i =>
    {junk i with latest_minimum := 0, runningMax := 50, maximumTrigger := 1}

/-- `initPlugin` (lines 123-157): cap `nColors`, build the bin array, start
with an empty source pool and a zero warm-up counter. -/
def initPlugin (layout : LayoutData) (palette : List RGB_t)
    (junk : ℕ → FreqBin) : PluginState :=
  let n := initNColors layout palette.length
  { cnt := 0, nColors := n, freqBins := initFreqBins junk n, sources := [] }

/-! ## The per-tick pipeline (getPluginFrame, lines 315-386) -/

/-- One iteration of the bin loop of `getPluginFrame` (lines 330-355): store
the fresh fft sample into the bin, run `beat_detector`, and on a beat raise
`maximumTrigger` if exceeded, compute the intensity and spawn a source.
`rand i` models the `drand48()` draw consumed by the spawn for bin `i`. -/
noncomputable def binStep (layout : LayoutData) (palette : List RGB_t)
    (fft : ℕ → ℕ) (rand : ℕ → ℚ) (acc : List FreqBin × List source_t)
    (i : ℕ) : List FreqBin × List source_t :=
  let b0 := {acc.1.getD i default with soundPower := fft i}
  let res := beat_detector b0
  let b := res.1
  if res.2 = 1 then
    let b := if b.maximumTrigger < b.soundPower then {b with maximumTrigger := b.soundPower} else b
    let intensity := computeIntensity b.soundPower b.runningMax
    (acc.1.set i b, addSource layout palette i intensity (rand i) acc.2)
  else
    (acc.1.set i b, acc.2)

/-- `getPluginFrame` (lines 315-386): during the first `SKIP_COUNT`
invocations only the static counter is incremented and nothing else happens
(`none` output); afterwards the bin loop runs over bins `0..nColors-1`, every
panel is rendered from the updated pool, `*nFrames` is set to the panel count
and finally the aging pass runs over the pool. -/
noncomputable def getPluginFrame (layout : LayoutData) (palette : List RGB_t)
    (fft : ℕ → ℕ) (tempoRaw : ℝ) (rand : ℕ → ℚ)
    (st : PluginState) : PluginState × Option (List Frame_t × ℕ) :=
  if st.cnt < SKIP_COUNT then ({st with cnt := st.cnt + 1}, none)
  else
    let bp := (List.range st.nColors.toNat).foldl (binStep layout palette fft rand)
      (st.freqBins, st.sources)
    let frames := layout.panels.map fun p =>
      let rgb := renderPanel p bp.2 tempoRaw
      { panelId := p.panelId, r := rgb.1, g := rgb.2.1, b := rgb.2.2,
        transTime := TRANSITION_TIME }
    let pool := ageAll bp.2
    ({st with freqBins := bp.1, sources := pool},
     some (frames, layout.panels.length))

/-! ## Sequences of pool operations (for the capacity invariant) -/

/-- An abstract pool operation: one `addSource` call or one aging pass. -/
inductive PoolOp where
  | spawn (paletteIndex : ℕ) (intensity : ℝ) (r : ℚ)
  | age

/-- Apply one pool operation. -/
noncomputable def applyOp (layout : LayoutData) (palette : List RGB_t) :
    PoolOp → List source_t → List source_t
  | PoolOp.spawn pi inten r, pool => addSource layout palette pi inten r pool
  | PoolOp.age, pool => ageAll pool

/-- Run a sequence of pool operations from an initial pool. -/
noncomputable def runOps (layout : LayoutData) (palette : List RGB_t) :
    List PoolOp → List source_t → List source_t
  | [], pool => pool
  | op :: rest, pool => runOps layout palette rest (applyOp layout palette op pool)

/-! ## Claim theorems -/

/-- Claim C4, counterexample: `addToRunningMax(3, 0, 4)` returns 2, while the
exact expression `current - current/effectiveTrail + sample/trail` of the claim
evaluates to 9/4; the C function truncates the float result to `int`, so it
does not return the claimed expression. -/
theorem C4_counterexample :
    addToRunningMax 3 0 4 = 2 ∧ (3 : ℚ) - 3 / 4 + 0 / 4 = 9 / 4 ∧ (2 : ℚ) ≠ 9 / 4 := by
  refine ⟨by norm_num [addToRunningMax, ratTrunc], by norm_num, by norm_num⟩

/-- Claim C4, amended: for a nonzero trail, `addToRunningMax` returns the
truncation toward zero of `current - current/effectiveTrail + sample/trail`
(exact division), where the trail is the integer half of `effectiveTrail` in
the fast-rise case and `effectiveTrail` itself otherwise. -/
theorem C4_addToRunningMax_formula (rm v et : ℤ) (h : et ≠ 0) :
    (rm < v ∧ 1 < et →
      addToRunningMax rm v et =
        ratTrunc ((rm : ℚ) - (rm : ℚ) / (et : ℚ) + (v : ℚ) / ((et.tdiv 2 : ℤ) : ℚ))) ∧
    (¬(rm < v ∧ 1 < et) →
      addToRunningMax rm v et =
        ratTrunc ((rm : ℚ) - (rm : ℚ) / (et : ℚ) + (v : ℚ) / (et : ℚ))) := by
  unfold addToRunningMax
  constructor <;> intro hc <;> simp [hc]

/-- Witness for C4: the amended formula evaluated at (3, 10, 4) (fast-rise
branch, trail halves to 2) and at (3, 0, 4) (plain branch). -/
theorem C4_witness :
    addToRunningMax 3 10 4 =
      ratTrunc (((3 : ℤ) : ℚ) - ((3 : ℤ) : ℚ) / ((4 : ℤ) : ℚ)
        + ((10 : ℤ) : ℚ) / ((((4 : ℤ).tdiv 2 : ℤ)) : ℚ)) ∧
    addToRunningMax 3 0 4 =
      ratTrunc (((3 : ℤ) : ℚ) - ((3 : ℤ) : ℚ) / ((4 : ℤ) : ℚ)
        + ((0 : ℤ) : ℚ) / ((4 : ℤ) : ℚ)) :=
  ⟨(C4_addToRunningMax_formula 3 10 4 (by decide)).1 (by decide),
   (C4_addToRunningMax_formula 3 0 4 (by decide)).2 (by decide)⟩

/-- Claim C5, counterexample: a call to `beat_detector` on a bin with
`latest_minimum = 10` and `soundPower = 0` snaps the minimum down to 0, a
decrease of 10 in a single tick, refuting that any decrease within one tick
is by at most 1. -/
theorem C5_counterexample :
    (beat_detector ⟨10, 0, 0, 0, 0, 0, 0, 0⟩).1.latest_minimum = 0 ∧
    ¬((10 : ℕ) - (beat_detector ⟨10, 0, 0, 0, 0, 0, 0, 0⟩).1.latest_minimum ≤ 1) := by
  norm_num [beat_detector, TRIGGER_THRESHOLD]

/-- Claim C5, amended: across one `beat_detector` call, `latest_minimum`
increases only by being set to the current `soundPower`, and any decrease is
either by exactly 1 (the per-tick decay) or by being snapped down to
`soundPower` when the power dropped below the floor. -/
theorem C5_latest_minimum_transitions (b : FreqBin) :
    (b.latest_minimum < (beat_detector b).1.latest_minimum →
      (beat_detector b).1.latest_minimum = b.soundPower) ∧
    ((beat_detector b).1.latest_minimum < b.latest_minimum →
      (beat_detector b).1.latest_minimum = b.latest_minimum - 1 ∨
      (beat_detector b).1.latest_minimum = b.soundPower) := by
  unfold beat_detector
  dsimp only
  split_ifs <;> dsimp only <;> constructor <;> intro hlt <;> omega

/-- Witness for C5: the amended transition property applied at a bin where
the decay branch runs (minimum 5 decreases, so it ends at 4 or at the power 5). -/
theorem C5_witness :
    (beat_detector ⟨5, 5, 0, 50, 0, 1, 5, 5⟩).1.latest_minimum = 5 - 1 ∨
    (beat_detector ⟨5, 5, 0, 50, 0, 1, 5, 5⟩).1.latest_minimum = 5 :=
  (C5_latest_minimum_transitions ⟨5, 5, 0, 50, 0, 1, 5, 5⟩).2
    (by norm_num [beat_detector, TRIGGER_THRESHOLD])

/-- Claim C2, counterexample: with `latestMinimum = 0` and `runningMax = 0`
the constant power `soundPower = 0 + 0 * 0.7 + 1 = 1` satisfies the claimed
premise, a beat fires on the first tick, and a beat fires AGAIN on the
immediately following tick (the decayed minimum re-qualifies the same power),
refuting the no-re-trigger part of the claim. -/
theorem C2_counterexample :
    ((1 : ℚ) = 0 + 0 * TRIGGER_THRESHOLD + 1) ∧
    (beat_detector ⟨0, 1, 0, 0, 0, 0, 1, 1⟩).2 = 1 ∧
    (beat_detector (beat_detector ⟨0, 1, 0, 0, 0, 0, 1, 1⟩).1).2 = 1 := by
  refine ⟨by norm_num [TRIGGER_THRESHOLD], ?_, ?_⟩ <;>
    norm_num [beat_detector, TRIGGER_THRESHOLD]

/-- Claim C8: with fewer than two panels `addSource` leaves the source pool
untouched, for every palette index, intensity and random draw. -/
theorem C8_addSource_noop (layout : LayoutData) (palette : List RGB_t)
    (paletteIndex : ℕ) (intensity : ℝ) (r : ℚ) (pool : List source_t)
    (h : layout.panels.length < 2) :
    addSource layout palette paletteIndex intensity r pool = pool := by
  simp [addSource, h]

/-- Witness for C8: a single-panel layout, arbitrary spawn arguments. -/
theorem C8_witness :
    addSource ⟨[⟨1, 0, 0⟩]⟩ [⟨255, 0, 0⟩] 0 1 0 [] = [] :=
  C8_addSource_noop ⟨[⟨1, 0, 0⟩]⟩ [⟨255, 0, 0⟩] 0 1 0 [] (by decide)

/-- Claim C3, counterexample: the pool holds an older source of age 1
(colour 9) in slot 0 and a source of age 0 (colour 7) just spawned at tick T.
The tick-T aging pass removes slot 0 and skips the new source, the
tick-(T+1) pass only increments its age, so after the pass of tick
`T + LIFESPAN` (with `LIFESPAN = 1`) the tick-T source is still in the pool,
refuting removal by tick `T + LIFESPAN` for every interleaving. -/
theorem C3_counterexample :
    ageAll (ageAll [⟨0, 0, 9, 9, 9, 1⟩, ⟨0, 0, 7, 7, 7, 0⟩]) = [⟨0, 0, 7, 7, 7, 1⟩] ∧
    LIFESPAN = 1 := by
  refine ⟨by decide, rfl⟩

/-- Claim C3, amended: a source spawned at tick T that is alone in the pool is
removed by the aging pass of tick `T + LIFESPAN`: with `LIFESPAN = 1`, the
tick-T pass raises its age to 1 and the tick-(T+1) pass removes it.  (With
other sources present the pass always removes slot 0, so removal of a newer
source can be delayed past `T + LIFESPAN`, as the counterexample shows.) -/
theorem C3_single_source_ages_out (s : source_t) (h : s.age = 0) :
    ageAll (ageAll [s]) = [] := by
  simp [ageAll, ageLoopF, h, removeSource, LIFESPAN]

/-- Witness for C3: a concrete age-0 source alone in the pool. -/
theorem C3_witness : ageAll (ageAll [⟨0, 0, 0, 0, 0, 0⟩]) = [] :=
  C3_single_source_ages_out ⟨0, 0, 0, 0, 0, 0⟩ rfl

/-- Helper: a `beat_detector` call on a bin held at a constant power `s`
(history equal to `s`) whose trigger condition holds: the beat fires and the
minimum snaps up to `s`. -/
theorem beat_detector_qualifying_eq (lm rm s rmin mt : ℕ) (col : ℤ)
    (hq : (lm : ℚ) + (rm : ℚ) * TRIGGER_THRESHOLD < (s : ℚ)) :
    beat_detector ⟨lm, s, col, rm, rmin, mt, s, s⟩ =
      (⟨s, s, col, rm, rmin, mt, s, s⟩, 1) := by
  have hθ : TRIGGER_THRESHOLD = 7 / 10 := by norm_num [TRIGGER_THRESHOLD]
  have hlm_lt : lm < s := by
    have hnn : (0 : ℚ) ≤ (rm : ℚ) * TRIGGER_THRESHOLD := by rw [hθ]; positivity
    have h1 : (lm : ℚ) < (s : ℚ) := by linarith
    exact_mod_cast h1
  unfold beat_detector
  rw [if_neg (show ¬ (s + rm / 4 < s ∧ s < s) by simp)]
  dsimp only
  rw [if_neg (show ¬ (s < lm) by omega)]
  rcases Nat.eq_zero_or_pos lm with h0 | h0
  · subst h0
    rw [if_neg (show ¬ ((0 : ℕ) < (0 : ℕ)) by omega)]
    dsimp only
    rw [if_pos hq]
  · rw [if_pos h0]
    dsimp only
    have hcast : ((lm - 1 : ℕ) : ℚ) = (lm : ℚ) - 1 := by
      push_cast [Nat.cast_sub h0]
      ring
    rw [if_pos (show ((lm - 1 : ℕ) : ℚ) + (rm : ℚ) * TRIGGER_THRESHOLD < (s : ℚ) by
      rw [hcast]; linarith)]

/-- Claim C2, amended: for a bin held at a constant `soundPower` that
satisfies the trigger condition `soundPower > latestMinimum + runningMax*0.7`,
and with `runningMax ≥ 2`, `beat_detector` fires on the first qualifying
tick, snaps `latestMinimum` up to `soundPower`, and does not fire on the
immediately following tick.  (The counterexample forces the extra
`runningMax ≥ 2` premise: with `runningMax = 0` the decayed minimum lets the
beat re-fire.) -/
theorem C2_beat_fires_once (lm rm s rmin mt : ℕ) (col : ℤ)
    (hq : (lm : ℚ) + (rm : ℚ) * TRIGGER_THRESHOLD < (s : ℚ)) (hrm : 2 ≤ rm) :
    (beat_detector ⟨lm, s, col, rm, rmin, mt, s, s⟩).2 = 1 ∧
    (beat_detector ⟨lm, s, col, rm, rmin, mt, s, s⟩).1.latest_minimum = s ∧
    (beat_detector (beat_detector ⟨lm, s, col, rm, rmin, mt, s, s⟩).1).2 = 0 := by
  have hθ : TRIGGER_THRESHOLD = 7 / 10 := by norm_num [TRIGGER_THRESHOLD]
  have hrmq : (2 : ℚ) ≤ (rm : ℚ) := by exact_mod_cast hrm
  have hlmq : (0 : ℚ) ≤ (lm : ℚ) := by positivity
  have hs2 : 2 ≤ s := by
    by_contra hc
    push_neg at hc
    have h1 : (s : ℚ) ≤ 1 := by exact_mod_cast Nat.le_of_lt_succ hc
    rw [hθ] at hq
    nlinarith
  have e1 := beat_detector_qualifying_eq lm rm s rmin mt col hq
  have e2 : beat_detector ⟨s, s, col, rm, rmin, mt, s, s⟩ =
      (⟨s - 1, s, col, rm, rmin, mt, s, s⟩, 0) := by
    unfold beat_detector
    rw [if_neg (show ¬ (s + rm / 4 < s ∧ s < s) by simp)]
    dsimp only
    rw [if_neg (show ¬ (s < s) by omega)]
    rw [if_pos (show 0 < s by omega)]
    dsimp only
    have hcast : ((s - 1 : ℕ) : ℚ) = (s : ℚ) - 1 := by
      push_cast [Nat.cast_sub (show 1 ≤ s by omega)]
      ring
    rw [if_neg (show ¬ (((s - 1 : ℕ) : ℚ) + (rm : ℚ) * TRIGGER_THRESHOLD < (s : ℚ)) by
      rw [hcast, hθ]; intro hcon; nlinarith)]
  rw [e1]
  exact ⟨rfl, rfl, by rw [e2]⟩

/-- Witness for C2: minimum 0, running max 10, constant power 8
(8 > 0 + 10*0.7): a beat on the first tick, none on the second. -/
theorem C2_witness :
    (beat_detector ⟨0, 8, 0, 10, 0, 0, 8, 8⟩).2 = 1 ∧
    (beat_detector ⟨0, 8, 0, 10, 0, 0, 8, 8⟩).1.latest_minimum = 8 ∧
    (beat_detector (beat_detector ⟨0, 8, 0, 10, 0, 0, 8, 8⟩).1).2 = 0 :=
  C2_beat_fires_once 0 10 8 0 0 0 (by norm_num [TRIGGER_THRESHOLD]) (by norm_num)

/-- Helper: removing slot 0 never lengthens the pool. -/
theorem removeSource_zero_length_le (l : List source_t) :
    (removeSource 0 l).length ≤ l.length := by
  cases l <;> simp [removeSource]

/-- Helper: removing slot 0 from a nonempty pool shortens it by one. -/
theorem removeSource_zero_length (l : List source_t) (h : 0 < l.length) :
    (removeSource 0 l).length = l.length - 1 := by
  cases l with
  | nil => simp at h
  | cons a t => simp [removeSource]

/-- Helper: the aging loop never lengthens the pool. -/
theorem ageLoopF_length_le (fuel : ℕ) : ∀ (i : ℕ) (l : List source_t),
    (ageLoopF fuel i l).length ≤ l.length := by
  induction fuel with
  | zero => intro i l; simp [ageLoopF]
  | succ n ih =>
    intro i l
    rw [ageLoopF]
    split
    · split
      · exact le_trans (ih (i + 1) (removeSource 0 l)) (removeSource_zero_length_le l)
      · exact le_trans (ih (i + 1) _) (by simp)
    · exact le_refl _

/-- Helper: the aging pass never lengthens the pool. -/
theorem ageAll_length_le (l : List source_t) : (ageAll l).length ≤ l.length :=
  ageLoopF_length_le l.length 0 l

/-- Helper: `addSource` keeps the pool within `MAX_SOURCES`. -/
theorem addSource_length_le (layout : LayoutData) (palette : List RGB_t)
    (paletteIndex : ℕ) (intensity : ℝ) (r : ℚ) (pool : List source_t)
    (h : pool.length ≤ MAX_SOURCES layout) :
    (addSource layout palette paletteIndex intensity r pool).length ≤ MAX_SOURCES layout := by
  unfold addSource
  split
  · exact h
  · rename_i hp
    dsimp only
    split
    · rename_i hcap
      have hlen : pool.length = MAX_SOURCES layout := le_antisymm h hcap
      have hpos : 0 < pool.length := by
        have h2 : 2 ≤ layout.panels.length := by omega
        have : 2 ≤ MAX_SOURCES layout := by
          simp only [MAX_SOURCES, LIFESPAN, mul_one]
          exact h2
        omega
      simp [removeSource_zero_length pool hpos]
      omega
    · rename_i hcap
      simp
      omega

/-- Helper: running any operation sequence preserves the capacity bound. -/
theorem runOps_length_le (layout : LayoutData) (palette : List RGB_t) :
    ∀ (ops : List PoolOp) (pool : List source_t),
    pool.length ≤ MAX_SOURCES layout →
    (runOps layout palette ops pool).length ≤ MAX_SOURCES layout := by
  intro ops
  induction ops with
  | nil => intro pool h; exact h
  | cons op rest ih =>
    intro pool h
    cases op with
    | spawn pi inten r =>
      exact ih _ (addSource_length_le layout palette pi inten r pool h)
    | age =>
      exact ih _ (le_trans (ageAll_length_le pool) h)

/-- Claim C1: starting from the empty pool, any sequence of `addSource` and
aging calls keeps the pool size within `MAX_SOURCES = nPanels * LIFESPAN`;
and a spawn performed at capacity (with at least two panels, so that the
spawn proceeds) first evicts slot 0 and then appends, leaving the size at
capacity. -/
theorem C1_pool_capacity (layout : LayoutData) (palette : List RGB_t) :
    (∀ ops : List PoolOp,
      (runOps layout palette ops []).length ≤ MAX_SOURCES layout) ∧
    (∀ (pool : List source_t) (paletteIndex : ℕ) (intensity : ℝ) (r : ℚ),
      pool.length = MAX_SOURCES layout → 2 ≤ layout.panels.length →
      addSource layout palette paletteIndex intensity r pool =
        removeSource 0 pool ++ [mkSpawn layout palette paletteIndex intensity r] ∧
      (addSource layout palette paletteIndex intensity r pool).length =
        MAX_SOURCES layout) := by
  constructor
  · intro ops
    exact runOps_length_le layout palette ops [] (by simp)
  · intro pool pi inten r hlen h2
    have hnop : ¬ (layout.panels.length < 2) := by omega
    have hcap : MAX_SOURCES layout ≤ pool.length := le_of_eq hlen.symm
    have heq : addSource layout palette pi inten r pool =
        removeSource 0 pool ++ [mkSpawn layout palette pi inten r] := by
      unfold addSource
      rw [if_neg hnop, if_pos hcap]
    refine ⟨heq, ?_⟩
    rw [heq]
    have hpos : 0 < pool.length := by
      have : 2 ≤ MAX_SOURCES layout := by
        simp only [MAX_SOURCES, LIFESPAN, mul_one]
        exact h2
      omega
    simp [removeSource_zero_length pool hpos]
    omega

/-- Witness for C1: a two-panel layout; the empty operation sequence respects
the bound, and a spawn on a pool at capacity 2 evicts slot 0, appends, and
stays at size 2. -/
theorem C1_witness :
    (runOps ⟨[⟨1, 0, 0⟩, ⟨2, 100, 0⟩]⟩ [⟨255, 0, 0⟩] [] []).length ≤
      MAX_SOURCES ⟨[⟨1, 0, 0⟩, ⟨2, 100, 0⟩]⟩ ∧
    (addSource ⟨[⟨1, 0, 0⟩, ⟨2, 100, 0⟩]⟩ [⟨255, 0, 0⟩] 0 1 0
        [⟨0, 0, 5, 5, 5, 0⟩, ⟨100, 0, 6, 6, 6, 0⟩] =
      removeSource 0 [⟨0, 0, 5, 5, 5, 0⟩, ⟨100, 0, 6, 6, 6, 0⟩] ++
        [mkSpawn ⟨[⟨1, 0, 0⟩, ⟨2, 100, 0⟩]⟩ [⟨255, 0, 0⟩] 0 1 0] ∧
    (addSource ⟨[⟨1, 0, 0⟩, ⟨2, 100, 0⟩]⟩ [⟨255, 0, 0⟩] 0 1 0
        [⟨0, 0, 5, 5, 5, 0⟩, ⟨100, 0, 6, 6, 6, 0⟩]).length =
      MAX_SOURCES ⟨[⟨1, 0, 0⟩, ⟨2, 100, 0⟩]⟩) :=
  ⟨(C1_pool_capacity ⟨[⟨1, 0, 0⟩, ⟨2, 100, 0⟩]⟩ [⟨255, 0, 0⟩]).1 [],
   (C1_pool_capacity ⟨[⟨1, 0, 0⟩, ⟨2, 100, 0⟩]⟩ [⟨255, 0, 0⟩]).2
     [⟨0, 0, 5, 5, 5, 0⟩, ⟨100, 0, 6, 6, 6, 0⟩] 0 1 0 (by decide) (by decide)⟩

/-- Claim C7: the per-beat intensity is 1.0 whenever `soundPower ≤ 1` or
`runningMax ≤ 1`; otherwise it equals the log-ratio formula clamped at 1.0
and lies in `[MINIMUM_INTENSITY, 1.0] = [0.2, 1.0]`. -/
theorem C7_intensity (sp rm : ℕ) :
    (sp ≤ 1 ∨ rm ≤ 1 → computeIntensity sp rm = 1) ∧
    (1 < sp → 1 < rm →
      computeIntensity sp rm =
        min ((Real.log (sp : ℝ) / Real.log (rm : ℝ)) * (1 - MINIMUM_INTENSITY)
          + MINIMUM_INTENSITY) 1 ∧
      MINIMUM_INTENSITY ≤ computeIntensity sp rm ∧ computeIntensity sp rm ≤ 1) := by
  unfold computeIntensity
  dsimp only
  constructor
  · intro h
    rw [if_neg (show ¬ (1 < sp ∧ 1 < rm) by omega)]
    rw [if_neg (show ¬ ((1 : ℝ) < 1) by norm_num)]
  · intro hsp hrm
    rw [if_pos (show 1 < sp ∧ 1 < rm from ⟨hsp, hrm⟩)]
    have hlsp : 0 < Real.log (sp : ℝ) := Real.log_pos (by exact_mod_cast hsp)
    have hlrm : 0 < Real.log (rm : ℝ) := Real.log_pos (by exact_mod_cast hrm)
    have hdiv : 0 ≤ Real.log (sp : ℝ) / Real.log (rm : ℝ) := le_of_lt (div_pos hlsp hlrm)
    have hmi : MINIMUM_INTENSITY = (0.2 : ℝ) := rfl
    have hv02 : MINIMUM_INTENSITY ≤
        (Real.log (sp : ℝ) / Real.log (rm : ℝ)) * (1 - MINIMUM_INTENSITY)
          + MINIMUM_INTENSITY := by
      rw [hmi]
      nlinarith
    by_cases h1 : (1 : ℝ) <
        (Real.log (sp : ℝ) / Real.log (rm : ℝ)) * (1 - MINIMUM_INTENSITY)
          + MINIMUM_INTENSITY
    · rw [if_pos h1]
      refine ⟨?_, by rw [hmi]; norm_num, le_refl 1⟩
      rw [min_def, if_neg (show ¬ ((Real.log (sp : ℝ) / Real.log (rm : ℝ))
        * (1 - MINIMUM_INTENSITY) + MINIMUM_INTENSITY ≤ 1) by linarith)]
    · rw [if_neg h1]
      push_neg at h1
      exact ⟨by rw [min_def, if_pos h1], hv02, h1⟩

/-- Witness for C7: degenerate input (1, 5) gives full intensity; ordinary
input (4, 2) lands in the claimed bounds. -/
theorem C7_witness :
    computeIntensity 1 5 = 1 ∧
    MINIMUM_INTENSITY ≤ computeIntensity 4 2 ∧ computeIntensity 4 2 ≤ 1 :=
  ⟨(C7_intensity 1 5).1 (Or.inl (le_refl 1)),
   ((C7_intensity 4 2).2 (by norm_num) (by norm_num)).2.1,
   ((C7_intensity 4 2).2 (by norm_num) (by norm_num)).2.2⟩

/-- Claim C10: while the static counter is below `SKIP_COUNT = 50`,
`getPluginFrame` only increments the counter and returns early: no frames and
no frame count are produced (`none`) and the bins and the source pool are
untouched.  Starting from the freshly initialized counter 0, the first 50
invocations all fall in this regime (the k-th invocation sees counter k). -/
theorem C10_warmup_skip :
    (∀ (layout : LayoutData) (palette : List RGB_t) (fft : ℕ → ℕ) (tempoRaw : ℝ)
      (rand : ℕ → ℚ) (st : PluginState), st.cnt < SKIP_COUNT →
      getPluginFrame layout palette fft tempoRaw rand st =
        ({st with cnt := st.cnt + 1}, none)) ∧
    (∀ (layout : LayoutData) (palette : List RGB_t) (fft : ℕ → ℕ) (tempoRaw : ℝ)
      (rand : ℕ → ℚ) (st : PluginState), st.cnt = 0 →
      ∀ k, k < SKIP_COUNT →
      ((fun s => (getPluginFrame layout palette fft tempoRaw rand s).1)^[k] st).cnt = k) := by
  have h1 : ∀ (layout : LayoutData) (palette : List RGB_t) (fft : ℕ → ℕ)
      (tempoRaw : ℝ) (rand : ℕ → ℚ) (st : PluginState), st.cnt < SKIP_COUNT →
      getPluginFrame layout palette fft tempoRaw rand st =
        ({st with cnt := st.cnt + 1}, none) := by
    intro layout palette fft tempoRaw rand st h
    unfold getPluginFrame
    rw [if_pos h]
  refine ⟨h1, ?_⟩
  intro layout palette fft tempoRaw rand st h0 k
  induction k with
  | zero => intro _; simpa using h0
  | succ n ih =>
    intro hk
    have hn : n < SKIP_COUNT := Nat.lt_of_succ_lt hk
    have hcnt := ih hn
    rw [Function.iterate_succ_apply',
      h1 layout palette fft tempoRaw rand _ (by rw [hcnt]; exact hn)]
    simp [hcnt]

/-- Witness for C10: a concrete just-initialized state early-returns with only
the counter bumped, and invocation number 49 still sees counter 49. -/
theorem C10_witness :
    getPluginFrame ⟨[]⟩ [] (fun _ => 0) 0 (fun _ => 0) ⟨0, 0, [], []⟩ =
      (⟨1, 0, [], []⟩, none) ∧
    ((fun s => (getPluginFrame ⟨[]⟩ [] (fun _ => 0) 0 (fun _ => 0) s).1)^[49]
      ⟨0, 0, [], []⟩).cnt = 49 :=
  ⟨C10_warmup_skip.1 ⟨[]⟩ [] (fun _ => 0) 0 (fun _ => 0) ⟨0, 0, [], []⟩ (by norm_num [SKIP_COUNT]),
   C10_warmup_skip.2 ⟨[]⟩ [] (fun _ => 0) 0 (fun _ => 0) ⟨0, 0, [], []⟩ rfl 49
     (by norm_num [SKIP_COUNT])⟩

/-- Claim C9: at initialization a palette longer than `nPanels - 2` is
silently truncated to exactly `nPanels - 2` colours (int arithmetic, so this
can even be negative) and a shorter palette is kept unchanged; an empty
palette yields a nonpositive `nColors` and an empty pool, and every tick with
a nonpositive `nColors` runs the bin loop zero times, so no source is ever
spawned: the pool only goes through the aging pass. -/
theorem C9_palette_truncation :
    (∀ (layout : LayoutData) (palette : List RGB_t) (junk : ℕ → FreqBin),
      (MAX_PALETTE_nColors layout < (palette.length : ℤ) →
        (initPlugin layout palette junk).nColors = MAX_PALETTE_nColors layout) ∧
      ((palette.length : ℤ) ≤ MAX_PALETTE_nColors layout →
        (initPlugin layout palette junk).nColors = (palette.length : ℤ))) ∧
    (∀ (layout : LayoutData) (junk : ℕ → FreqBin),
      (initPlugin layout [] junk).sources = [] ∧
      (initPlugin layout [] junk).nColors ≤ 0) ∧
    (∀ (layout : LayoutData) (palette : List RGB_t) (fft : ℕ → ℕ) (tempoRaw : ℝ)
      (rand : ℕ → ℚ) (st : PluginState), st.nColors ≤ 0 → SKIP_COUNT ≤ st.cnt →
      (getPluginFrame layout palette fft tempoRaw rand st).1.sources =
        ageAll st.sources) := by
  refine ⟨?_, ?_, ?_⟩
  · intro layout palette junk
    constructor
    · intro h
      simp [initPlugin, initNColors, h]
    · intro h
      simp [initPlugin, initNColors, not_lt.2 h]
  · intro layout junk
    refine ⟨rfl, ?_⟩
    simp only [initPlugin, initNColors]
    split_ifs with h
    · simp at h
      omega
    · simp
  · intro layout palette fft tempoRaw rand st hn hcnt
    unfold getPluginFrame
    rw [if_neg (not_lt.2 hcnt)]
    have ht : st.nColors.toNat = 0 := Int.toNat_of_nonpos hn
    rw [ht]
    simp [ageAll]

/-- Witness for C9: a three-panel layout truncates a two-colour palette to
`3 - 2 = 1` colour; the empty palette gives nonpositive `nColors`; and a tick
on a warm state with `nColors = 0` only ages the pool. -/
theorem C9_witness :
    (initPlugin ⟨[⟨1, 0, 0⟩, ⟨2, 0, 0⟩, ⟨3, 0, 0⟩]⟩ [⟨1, 2, 3⟩, ⟨4, 5, 6⟩]
      (fun _ => default)).nColors = MAX_PALETTE_nColors ⟨[⟨1, 0, 0⟩, ⟨2, 0, 0⟩, ⟨3, 0, 0⟩]⟩ ∧
    (initPlugin ⟨[⟨1, 0, 0⟩]⟩ [] (fun _ => default)).nColors ≤ 0 ∧
    (getPluginFrame ⟨[]⟩ [] (fun _ => 0) 0 (fun _ => 0)
      ⟨50, 0, [], [⟨0, 0, 1, 1, 1, 0⟩]⟩).1.sources = ageAll [⟨0, 0, 1, 1, 1, 0⟩] :=
  ⟨((C9_palette_truncation.1 ⟨[⟨1, 0, 0⟩, ⟨2, 0, 0⟩, ⟨3, 0, 0⟩]⟩ [⟨1, 2, 3⟩, ⟨4, 5, 6⟩]
      (fun _ => default)).1 (by norm_num [MAX_PALETTE_nColors])),
   (C9_palette_truncation.2.1 ⟨[⟨1, 0, 0⟩]⟩ (fun _ => default)).2,
   C9_palette_truncation.2.2 ⟨[]⟩ [] (fun _ => 0) 0 (fun _ => 0)
     ⟨50, 0, [], [⟨0, 0, 1, 1, 1, 0⟩]⟩ (le_refl 0) (le_refl 50)⟩

/-- Helper: truncation toward zero is the identity on integer values. -/
theorem realTrunc_intCast (n : ℤ) : realTrunc ((n : ℤ) : ℝ) = n := by
  unfold realTrunc
  split_ifs <;> simp

/-- Helper: truncation toward zero sends `[0, 1)` to 0. -/
theorem realTrunc_of_Ico (x : ℝ) (h0 : 0 ≤ x) (h1 : x < 1) : realTrunc x = 0 := by
  unfold realTrunc
  rw [if_pos h0]
  exact Int.floor_eq_zero_iff.2 ⟨h0, h1⟩

/-- Helper: the diffusion multiplier of `renderPanel` is at least 1 (tempo
diffusion is compiled out, so it is the constant 1.5). -/
theorem multiplier_ge_one (tempo : ℝ) :
    (1 : ℝ) ≤ (if TEMPO_ENABLED then Real.log (tempo + 1) + ((MININMUM_MULTIPLIER : ℚ) : ℝ)
      else ((MININMUM_MULTIPLIER : ℚ) : ℝ)) := by
  simp only [TEMPO_ENABLED, Bool.false_eq_true, if_false]
  norm_num [MININMUM_MULTIPLIER]

/-- Helper: every mixing factor is positive. -/
theorem srcFactor_pos (px py : ℚ) (tempo : ℝ) (s : source_t) :
    0 < srcFactor px py tempo s := by
  unfold srcFactor
  dsimp only
  have hm := multiplier_ge_one tempo
  have hd2 : 0 ≤ (distance (px : ℝ) (py : ℝ) (s.x : ℝ) (s.y : ℝ) / ((ADJACENT_PANEL_DISTANCE : ℚ) : ℝ)) *
      (distance (px : ℝ) (py : ℝ) (s.x : ℝ) (s.y : ℝ) / ((ADJACENT_PANEL_DISTANCE : ℚ) : ℝ)) :=
    mul_self_nonneg _
  positivity

/-- Helper: every mixing factor is at most 1. -/
theorem srcFactor_le_one (px py : ℚ) (tempo : ℝ) (s : source_t) :
    srcFactor px py tempo s ≤ 1 := by
  unfold srcFactor
  dsimp only
  have hm := multiplier_ge_one tempo
  have hd2 : 0 ≤ (distance (px : ℝ) (py : ℝ) (s.x : ℝ) (s.y : ℝ) / ((ADJACENT_PANEL_DISTANCE : ℚ) : ℝ)) *
      (distance (px : ℝ) (py : ℝ) (s.x : ℝ) (s.y : ℝ) / ((ADJACENT_PANEL_DISTANCE : ℚ) : ℝ)) :=
    mul_self_nonneg _
  rw [div_le_one (by nlinarith)]
  nlinarith

/-- Helper: the cartesian distance from a point to itself is 0. -/
theorem distance_self (x y : ℝ) : distance x y x y = 0 := by
  simp [distance]

/-- Helper: a source sitting exactly on the panel centroid has factor 1. -/
theorem srcFactor_eq_one (px py : ℚ) (tempo : ℝ) (s : source_t)
    (hx : s.x = px) (hy : s.y = py) : srcFactor px py tempo s = 1 := by
  unfold srcFactor
  dsimp only
  rw [hx, hy, distance_self]
  simp

/-- Helper: a source farther than `ADJACENT_PANEL_DISTANCE * sqrt T` from the
panel has mixing factor at most `1 / (T + 1)`. -/
theorem srcFactor_le_of_far (px py : ℚ) (tempo : ℝ) (s : source_t) (T : ℝ)
    (hT : 0 ≤ T)
    (hd : ((ADJACENT_PANEL_DISTANCE : ℚ) : ℝ) * Real.sqrt T <
      distance (px : ℝ) (py : ℝ) (s.x : ℝ) (s.y : ℝ)) :
    srcFactor px py tempo s ≤ 1 / (T + 1) := by
  have hA : (0 : ℝ) < ((ADJACENT_PANEL_DISTANCE : ℚ) : ℝ) := by
    rw [show ((ADJACENT_PANEL_DISTANCE : ℚ) : ℝ) = ((86599995 : ℝ) / 1000000) by
      norm_num [ADJACENT_PANEL_DISTANCE]]
    norm_num
  unfold srcFactor
  dsimp only
  have hm := multiplier_ge_one tempo
  set d := distance (px : ℝ) (py : ℝ) (s.x : ℝ) (s.y : ℝ) / ((ADJACENT_PANEL_DISTANCE : ℚ) : ℝ) with hdd
  have hsq : Real.sqrt T < d := by
    rw [hdd, lt_div_iff₀ hA]
    calc Real.sqrt T * ((ADJACENT_PANEL_DISTANCE : ℚ) : ℝ)
        = ((ADJACENT_PANEL_DISTANCE : ℚ) : ℝ) * Real.sqrt T := by ring
      _ < _ := hd
  have hd2T : T < d * d := by
    have h1 : Real.sqrt T * Real.sqrt T < d * d :=
      mul_self_lt_mul_self (Real.sqrt_nonneg T) hsq
    rwa [Real.mul_self_sqrt hT] at h1
  have hd2 : 0 ≤ d * d := mul_self_nonneg d
  rw [div_le_div_iff₀ (by nlinarith) (by nlinarith)]
  nlinarith

/-- Helper: the colour accumulator of the blend fold stays nonnegative and
grows by at most `factor-bound * (sum of the channel values)`. -/
theorem blend_foldl_bounds (px py : ℚ) (tempo : ℝ) (ε : ℝ) :
    ∀ (srcs : List source_t) (acc : ℝ × ℝ × ℝ),
    (∀ s ∈ srcs, 0 ≤ s.R ∧ 0 ≤ s.G ∧ 0 ≤ s.B ∧ srcFactor px py tempo s ≤ ε) →
    0 ≤ acc.1 → 0 ≤ acc.2.1 → 0 ≤ acc.2.2 →
    (0 ≤ (srcs.foldl (blendStep px py tempo) acc).1 ∧
      (srcs.foldl (blendStep px py tempo) acc).1 ≤
        acc.1 + ε * ((srcs.map fun s => ((s.R : ℤ) : ℝ)).sum)) ∧
    (0 ≤ (srcs.foldl (blendStep px py tempo) acc).2.1 ∧
      (srcs.foldl (blendStep px py tempo) acc).2.1 ≤
        acc.2.1 + ε * ((srcs.map fun s => ((s.G : ℤ) : ℝ)).sum)) ∧
    (0 ≤ (srcs.foldl (blendStep px py tempo) acc).2.2 ∧
      (srcs.foldl (blendStep px py tempo) acc).2.2 ≤
        acc.2.2 + ε * ((srcs.map fun s => ((s.B : ℤ) : ℝ)).sum)) := by
  intro srcs
  induction srcs with
  | nil =>
    intro acc hmem h1 h2 h3
    simp [h1, h2, h3]
  | cons s t ih =>
    intro acc hmem h1 h2 h3
    have hs := hmem s (List.mem_cons_self s t)
    obtain ⟨hR, hG, hB, hf⟩ := hs
    have hfpos := srcFactor_pos px py tempo s
    have hfle := srcFactor_le_one px py tempo s
    have hRQ : (0 : ℝ) ≤ ((s.R : ℤ) : ℝ) := by exact_mod_cast hR
    have hGQ : (0 : ℝ) ≤ ((s.G : ℤ) : ℝ) := by exact_mod_cast hG
    have hBQ : (0 : ℝ) ≤ ((s.B : ℤ) : ℝ) := by exact_mod_cast hB
    set f := srcFactor px py tempo s with hfdef
    have hstep : List.foldl (blendStep px py tempo) acc (s :: t) =
        List.foldl (blendStep px py tempo) (blendStep px py tempo acc s) t := by
      simp
    have hacc1 : 0 ≤ (blendStep px py tempo acc s).1 := by
      unfold blendStep
      dsimp only
      rw [← hfdef]
      nlinarith
    have hacc2 : 0 ≤ (blendStep px py tempo acc s).2.1 := by
      unfold blendStep
      dsimp only
      rw [← hfdef]
      nlinarith
    have hacc3 : 0 ≤ (blendStep px py tempo acc s).2.2 := by
      unfold blendStep
      dsimp only
      rw [← hfdef]
      nlinarith
    have hmem' : ∀ u ∈ t, 0 ≤ u.R ∧ 0 ≤ u.G ∧ 0 ≤ u.B ∧ srcFactor px py tempo u ≤ ε :=
      fun u hu => hmem u (List.mem_cons_of_mem s hu)
    have hrec := ih (blendStep px py tempo acc s) hmem' hacc1 hacc2 hacc3
    rw [hstep]
    have hb1 : (blendStep px py tempo acc s).1 ≤ acc.1 + ε * ((s.R : ℤ) : ℝ) := by
      unfold blendStep
      dsimp only
      rw [← hfdef]
      nlinarith
    have hb2 : (blendStep px py tempo acc s).2.1 ≤ acc.2.1 + ε * ((s.G : ℤ) : ℝ) := by
      unfold blendStep
      dsimp only
      rw [← hfdef]
      nlinarith
    have hb3 : (blendStep px py tempo acc s).2.2 ≤ acc.2.2 + ε * ((s.B : ℤ) : ℝ) := by
      unfold blendStep
      dsimp only
      rw [← hfdef]
      nlinarith
    refine ⟨⟨hrec.1.1, ?_⟩, ⟨hrec.2.1.1, ?_⟩, ⟨hrec.2.2.1, ?_⟩⟩
    · calc (List.foldl (blendStep px py tempo) (blendStep px py tempo acc s) t).1
          ≤ (blendStep px py tempo acc s).1 + ε * ((t.map fun u => ((u.R : ℤ) : ℝ)).sum) :=
            hrec.1.2
        _ ≤ acc.1 + ε * ((s.R : ℤ) : ℝ) + ε * ((t.map fun u => ((u.R : ℤ) : ℝ)).sum) := by
            linarith
        _ = acc.1 + ε * (((s :: t).map fun u => ((u.R : ℤ) : ℝ)).sum) := by
            simp
            ring
    · calc (List.foldl (blendStep px py tempo) (blendStep px py tempo acc s) t).2.1
          ≤ (blendStep px py tempo acc s).2.1 + ε * ((t.map fun u => ((u.G : ℤ) : ℝ)).sum) :=
            hrec.2.1.2
        _ ≤ acc.2.1 + ε * ((s.G : ℤ) : ℝ) + ε * ((t.map fun u => ((u.G : ℤ) : ℝ)).sum) := by
            linarith
        _ = acc.2.1 + ε * (((s :: t).map fun u => ((u.G : ℤ) : ℝ)).sum) := by
            simp
            ring
    · calc (List.foldl (blendStep px py tempo) (blendStep px py tempo acc s) t).2.2
          ≤ (blendStep px py tempo acc s).2.2 + ε * ((t.map fun u => ((u.B : ℤ) : ℝ)).sum) :=
            hrec.2.2.2
        _ ≤ acc.2.2 + ε * ((s.B : ℤ) : ℝ) + ε * ((t.map fun u => ((u.B : ℤ) : ℝ)).sum) := by
            linarith
        _ = acc.2.2 + ε * (((s :: t).map fun u => ((u.B : ℤ) : ℝ)).sum) := by
            simp
            ring

/-- Claim C6: `renderPanel` with no live sources returns the base colour;
with exactly one live source positioned on the panel centroid (distance 0)
over the black base it returns exactly that source's (R, G, B); and for every
source list with nonnegative colours there is a distance `D` beyond which a
panel farther than `D` from every source gets exactly the base colour (the
"infinitely far" limit of the claim). -/
theorem C6_render_falloff :
    (∀ (p : Panel) (tempoRaw : ℝ),
      renderPanel p [] tempoRaw = (BASE_COLOUR_R, BASE_COLOUR_G, BASE_COLOUR_B)) ∧
    (∀ (p : Panel) (s : source_t) (tempoRaw : ℝ), s.x = p.cx → s.y = p.cy →
      renderPanel p [s] tempoRaw = (s.R, s.G, s.B)) ∧
    (∀ (srcs : List source_t) (tempoRaw : ℝ),
      (∀ s ∈ srcs, 0 ≤ s.R ∧ 0 ≤ s.G ∧ 0 ≤ s.B) →
      ∃ D : ℝ, ∀ p : Panel,
        (∀ s ∈ srcs, D < distance (p.cx : ℝ) (p.cy : ℝ) (s.x : ℝ) (s.y : ℝ)) →
        renderPanel p srcs tempoRaw = (BASE_COLOUR_R, BASE_COLOUR_G, BASE_COLOUR_B)) := by
  refine ⟨?_, ?_, ?_⟩
  · intro p tempoRaw
    unfold renderPanel
    dsimp only
    simp only [List.foldl_nil]
    rw [realTrunc_intCast, realTrunc_intCast, realTrunc_intCast]
  · intro p s tempoRaw hx hy
    unfold renderPanel
    dsimp only
    simp only [List.foldl_cons, List.foldl_nil]
    unfold blendStep
    dsimp only
    rw [srcFactor_eq_one p.cx p.cy (tempoRaw + 1) s hx hy]
    norm_num
    rw [realTrunc_intCast, realTrunc_intCast, realTrunc_intCast]
    exact ⟨rfl, rfl, rfl⟩
  · intro srcs tempoRaw hcols
    have hcolsR : ∀ s ∈ srcs, (0 : ℝ) ≤ ((s.R : ℤ) : ℝ) := by
      intro s hs; exact_mod_cast (hcols s hs).1
    have hcolsG : ∀ s ∈ srcs, (0 : ℝ) ≤ ((s.G : ℤ) : ℝ) := by
      intro s hs; exact_mod_cast (hcols s hs).2.1
    have hcolsB : ∀ s ∈ srcs, (0 : ℝ) ≤ ((s.B : ℤ) : ℝ) := by
      intro s hs; exact_mod_cast (hcols s hs).2.2
    set T : ℝ :=
      ((srcs.map fun s => ((s.R : ℤ) : ℝ) + ((s.G : ℤ) : ℝ) + ((s.B : ℤ) : ℝ)).sum) with hT
    have hT0 : 0 ≤ T := by
      rw [hT]
      apply List.sum_nonneg
      intro x hx
      simp only [List.mem_map] at hx
      obtain ⟨s, hs, rfl⟩ := hx
      have h1 := hcolsR s hs
      have h2 := hcolsG s hs
      have h3 := hcolsB s hs
      linarith
    have hsumR : ((srcs.map fun s => ((s.R : ℤ) : ℝ)).sum) ≤ T := by
      rw [hT]
      apply List.sum_le_sum
      intro s hs
      have h2 := hcolsG s hs
      have h3 := hcolsB s hs
      linarith
    have hsumG : ((srcs.map fun s => ((s.G : ℤ) : ℝ)).sum) ≤ T := by
      rw [hT]
      apply List.sum_le_sum
      intro s hs
      have h1 := hcolsR s hs
      have h3 := hcolsB s hs
      linarith
    have hsumB : ((srcs.map fun s => ((s.B : ℤ) : ℝ)).sum) ≤ T := by
      rw [hT]
      apply List.sum_le_sum
      intro s hs
      have h1 := hcolsR s hs
      have h2 := hcolsG s hs
      linarith
    refine ⟨((ADJACENT_PANEL_DISTANCE : ℚ) : ℝ) * Real.sqrt T, ?_⟩
    intro p hfar
    have hT1 : (0 : ℝ) < T + 1 := by linarith
    have hε : (0 : ℝ) ≤ 1 / (T + 1) := by positivity
    have hcond : ∀ s ∈ srcs,
        0 ≤ s.R ∧ 0 ≤ s.G ∧ 0 ≤ s.B ∧
        srcFactor p.cx p.cy (tempoRaw + 1) s ≤ 1 / (T + 1) := by
      intro s hs
      obtain ⟨h1, h2, h3⟩ := hcols s hs
      exact ⟨h1, h2, h3, srcFactor_le_of_far p.cx p.cy (tempoRaw + 1) s T hT0 (hfar s hs)⟩
    have hbase : ((BASE_COLOUR_R : ℤ) : ℝ) = 0 ∧ ((BASE_COLOUR_G : ℤ) : ℝ) = 0 ∧
        ((BASE_COLOUR_B : ℤ) : ℝ) = 0 := by
      norm_num [BASE_COLOUR_R, BASE_COLOUR_G, BASE_COLOUR_B]
    have hb := blend_foldl_bounds p.cx p.cy (tempoRaw + 1) (1 / (T + 1)) srcs
      (((BASE_COLOUR_R : ℤ) : ℝ), ((BASE_COLOUR_G : ℤ) : ℝ), ((BASE_COLOUR_B : ℤ) : ℝ))
      hcond (by rw [hbase.1]) (by exact le_of_eq hbase.2.1.symm) (by exact le_of_eq hbase.2.2.symm)
    have hfrac : ∀ S : ℝ, S ≤ T → 1 / (T + 1) * S < 1 := by
      intro S hS
      have hle : 1 / (T + 1) * S ≤ 1 / (T + 1) * T := by
        apply mul_le_mul_of_nonneg_left hS hε
      have hlt : 1 / (T + 1) * T < 1 := by
        rw [div_mul_eq_mul_div, one_mul, div_lt_one hT1]
        linarith
      linarith
    unfold renderPanel
    dsimp only
    rw [realTrunc_of_Ico _ hb.1.1 (by
      have := hb.1.2
      have h2 := hfrac _ hsumR
      rw [hbase.1] at this
      linarith)]
    rw [realTrunc_of_Ico _ hb.2.1.1 (by
      have := hb.2.1.2
      have h2 := hfrac _ hsumG
      rw [hbase.2.1] at this
      linarith)]
    rw [realTrunc_of_Ico _ hb.2.2.1 (by
      have := hb.2.2.2
      have h2 := hfrac _ hsumB
      rw [hbase.2.2] at this
      linarith)]
    norm_num [BASE_COLOUR_R, BASE_COLOUR_G, BASE_COLOUR_B]

/-- Witness for C6: a panel at (3, 4); the empty pool yields the base colour,
a coincident source of colour (10, 20, 30) is returned exactly, and a
far-enough panel from a (1, 2, 3) source yields the base colour. -/
theorem C6_witness :
    renderPanel ⟨7, 3, 4⟩ [] 0 = (BASE_COLOUR_R, BASE_COLOUR_G, BASE_COLOUR_B) ∧
    renderPanel ⟨7, 3, 4⟩ [⟨3, 4, 10, 20, 30, 0⟩] 0 = (10, 20, 30) ∧
    ∃ D : ℝ, ∀ p : Panel,
      (∀ s ∈ [(⟨9, 9, 1, 2, 3, 0⟩ : source_t)],
        D < distance (p.cx : ℝ) (p.cy : ℝ) (s.x : ℝ) (s.y : ℝ)) →
      renderPanel p [⟨9, 9, 1, 2, 3, 0⟩] 0 = (BASE_COLOUR_R, BASE_COLOUR_G, BASE_COLOUR_B) :=
  ⟨C6_render_falloff.1 ⟨7, 3, 4⟩ 0,
   C6_render_falloff.2.1 ⟨7, 3, 4⟩ ⟨3, 4, 10, 20, 30, 0⟩ 0 rfl rfl,
   C6_render_falloff.2.2 [⟨9, 9, 1, 2, 3, 0⟩] 0 (by
     intro s hs
     simp only [List.mem_singleton] at hs
     subst hs
     refine ⟨by norm_num, by norm_num, by norm_num⟩)⟩
